import Mathlib

/-!
Verification of the monsoon weather-client core (parameter validation,
cache-freshness decision, conditional revalidation, response-body decoding)
against a shallow embedding of its source.

The embedding models:
- IEEE-754 binary64 arithmetic (`F64`) by exact rationals together with
  round-to-nearest-ties-to-even, used by `Params` validation and coordinate
  truncation (src/monsoon/src/monsoon.rs);
- the HTTP fetch pipeline of `Client` (src/monsoon/src/client.rs) over an
  explicit "network outcome" argument, with Rust panics made explicit;
- the serde-style JSON decoding of the response body (src/monsoon/src/body.rs).
-/

set_option maxRecDepth 40000

attribute [local semireducible] Rat.mul Rat.add Rat.sub Rat.inv Rat.ofScientific

/-! ## IEEE-754 binary64 model over exact rationals -/

/-- Fuel-driven base-2 logarithm; `log2fuel f n` equals `⌊log₂ n⌋` whenever
`n ≤ f` and `0 < n`. Written with explicit fuel so that it reduces in the
kernel (the core `Nat.log2` is defined by well-founded recursion). -/
def log2fuel : ℕ → ℕ → ℕ
  | 0, _ => 0
  | f + 1, n => if 2 ≤ n then log2fuel f (n / 2) + 1 else 0

/-- Floor of the base-2 logarithm of a natural number (0 for 0). -/
def natLog2 (n : ℕ) : ℕ := log2fuel n n

/-- Integer powers of 2 in ℚ, computed through kernel-accelerated `Nat.pow`. -/
def pow2 (d : ℤ) : ℚ :=
  if 0 ≤ d then ((2 ^ d.toNat : ℕ) : ℚ) else (((2 ^ (-d).toNat : ℕ) : ℚ))⁻¹

/-- Binade of a positive rational: the unique `e` with `2^e ≤ q < 2^(e+1)`
(junk value on non-positive input). -/
def binadeQ (q : ℚ) : ℤ :=
  let d : ℤ := (natLog2 q.num.toNat : ℤ) - (natLog2 q.den : ℤ)
  if q < pow2 d then d - 1 else d

/-- Round a rational to the nearest integer, ties to even. -/
def halfEvenQ (x : ℚ) : ℤ :=
  let fl := Rat.floor x
  if x - fl < 1 / 2 then fl
  else if (1 : ℚ) / 2 < x - fl then fl + 1
  else if fl % 2 = 0 then fl else fl + 1

/-- Round a positive rational to the binary64 grid (unbounded exponent above,
subnormal granularity `2^(-1074)` below); junk value on non-positive input. -/
def roundPosQ (q : ℚ) : ℚ :=
  let e : ℤ := max (binadeQ q) (-1022)
  ((halfEvenQ (q * pow2 (52 - e)) : ℤ) : ℚ) * pow2 (e - 52)

/-- Round any rational to the binary64 grid, nearest-ties-to-even. -/
def roundQ (q : ℚ) : ℚ :=
  if q = 0 then 0 else if 0 < q then roundPosQ q else -roundPosQ (-q)

/-- Model of an IEEE-754 binary64 value. A finite value carries its exact
rational magnitude (the two IEEE zeros are collapsed into `finite 0`, which
is faithful for every operation and comparison the source performs). -/
inductive F64 where
  | finite (val : ℚ)
  | inf
  | neginf
  | nan
deriving DecidableEq, Repr

/-- Semantics of a Rust `f64` literal or arithmetic result: round the exact
rational to binary64, overflowing to ±∞ past `2^1024`. -/
def F64.fromQ (q : ℚ) : F64 :=
  let r := roundQ q
  if ((2 ^ 1024 : ℕ) : ℚ) ≤ |r| then (if r < 0 then .neginf else .inf)
  else .finite r

/-- Model of `f64::is_finite`. -/
def F64.isFinite : F64 → Bool
  | .finite _ => true
  | _ => false

/-- Model of `f64::abs`. -/
def F64.abs : F64 → F64
  | .finite q => .finite |q|
  | .inf => .inf
  | .neginf => .inf
  | .nan => .nan

/-- Model of the IEEE `>` comparison (`false` whenever a NaN is involved). -/
def F64.gt : F64 → F64 → Bool
  | .nan, _ => false
  | _, .nan => false
  | .inf, .inf => false
  | .inf, _ => true
  | _, .inf => false
  | .neginf, _ => false
  | .finite _, .neginf => true
  | .finite a, .finite b => decide (b < a)

/-- Model of `f64` multiplication: exact product, rounded. -/
def F64.mul : F64 → F64 → F64
  | .nan, _ => .nan
  | _, .nan => .nan
  | .inf, .inf => .inf
  | .inf, .neginf => .neginf
  | .neginf, .inf => .neginf
  | .neginf, .neginf => .inf
  | .inf, .finite b => if b = 0 then .nan else if 0 < b then .inf else .neginf
  | .finite a, .inf => if a = 0 then .nan else if 0 < a then .inf else .neginf
  | .neginf, .finite b => if b = 0 then .nan else if 0 < b then .neginf else .inf
  | .finite a, .neginf => if a = 0 then .nan else if 0 < a then .neginf else .inf
  | .finite a, .finite b => F64.fromQ (a * b)

/-- Model of `f64` division: exact quotient, rounded; division by zero gives
a signed infinity (signs of zeros are collapsed, which the source never
observes: it only ever divides by the constant `10000.0`). -/
def F64.div : F64 → F64 → F64
  | .nan, _ => .nan
  | _, .nan => .nan
  | .inf, .inf => .nan
  | .inf, .neginf => .nan
  | .neginf, .inf => .nan
  | .neginf, .neginf => .nan
  | .inf, .finite b => if 0 ≤ b then .inf else .neginf
  | .neginf, .finite b => if 0 ≤ b then .neginf else .inf
  | .finite _, .inf => .finite 0
  | .finite _, .neginf => .finite 0
  | .finite a, .finite b =>
    if b = 0 then (if a = 0 then .nan else if 0 < a then .inf else .neginf)
    else F64.fromQ (a / b)

/-- Model of `f64::trunc` (round toward zero; exact on binary64 values). -/
def F64.trunc : F64 → F64
  | .finite q => .finite ((Int.tdiv q.num q.den : ℤ) : ℚ)
  | .inf => .inf
  | .neginf => .neginf
  | .nan => .nan

/-! ## Error, Response and Params (src/monsoon/src/error.rs, monsoon.rs) -/

/-- Mirror of monsoon's `Error` enum (`thiserror` payloads kept as strings). -/
inductive Error where
  | HttpClient (msg : String)
  | Response (msg : String)
  | Request (msg : String)
  | ResponseBody (msg : String)
  | Params (msg : String)
deriving DecidableEq, Repr

/-- Mirror of monsoon's `Response` struct. `expires_at` is the instant of the
parsed `DateTime<FixedOffset>` in seconds since the Unix epoch (chrono orders
such values by instant). -/
structure Response where
  expires_at : Int
  last_modified : String
  raw_body : String
deriving DecidableEq, Repr

/-- Mirror of monsoon's `Params` struct; `alt` is the mathematical value of
the `i32` (its range is never exceeded by construction). -/
structure Params where
  lat : F64
  lon : F64
  alt : Option Int
  last_response : Option Response
deriving DecidableEq, Repr

/-- The coordinate normalization applied on construction:
`(x * 10000.0).trunc() / 10000.0` (the literals `10000.0`, `90.0`, `180.0`
are exactly representable, hence written as exact finite values). -/
def normalizeCoord (x : F64) : F64 :=
  F64.div (F64.trunc (F64.mul x (.finite 10000))) (.finite 10000)

/-- Mirror of `Params::new_with_last_response` (monsoon.rs lines 44-71). -/
def Params.new_with_last_response (lat lon : F64) (alt : Option Int)
    (last_response : Option Response) : Except Error Params :=
  if !lat.isFinite || F64.gt lat.abs (.finite 90) then
    .error (.Params "Invalid lat value.")
  else if !lon.isFinite || F64.gt lon.abs (.finite 180) then
    .error (.Params "Invalid lon value.")
  else if (match alt with
           | some a => decide (¬(-500 ≤ a ∧ a ≤ 9000))
           | none => false) then
    .error (.Params "Invalid alt value.")
  else
    .ok ⟨normalizeCoord lat, normalizeCoord lon, alt, last_response⟩

/-- Mirror of `Params::new`. -/
def Params.new (lat lon : F64) (alt : Option Int) : Except Error Params :=
  Params.new_with_last_response lat lon alt none

/-! ## Calendar arithmetic and RFC 2822 dates (model of chrono) -/

/-- Gregorian leap-year test. -/
def isLeap (y : ℕ) : Bool := (y % 4 = 0 && y % 100 ≠ 0) || y % 400 = 0

/-- Number of days in a month. -/
def daysInMonth (y m : ℕ) : ℕ :=
  if m = 2 then (if isLeap y then 29 else 28)
  else if m = 4 ∨ m = 6 ∨ m = 9 ∨ m = 11 then 30
  else 31

/-- Days since 1970-01-01 of the civil date `y-m-d` (valid for `y ≥ 1`). -/
def civilToEpochDays (y m d : ℕ) : ℤ :=
  let yy := if m ≤ 2 then y - 1 else y
  let era := yy / 400
  let yoe := yy % 400
  let mp := (m + 9) % 12
  let doy := (153 * mp + 2) / 5 + (d - 1)
  let doe := yoe * 365 + yoe / 4 - yoe / 100 + doy
  ((era * 146097 + doe : ℕ) : ℤ) - 719468

/-- Decimal digit test. -/
def isDigit (c : Char) : Bool := '0' ≤ c && c ≤ '9'

/-- Value of a decimal digit character. -/
def digitVal (c : Char) : ℕ := c.toNat - 48

/-- Read exactly two decimal digits. -/
def takeDigits2 : List Char → Option (ℕ × List Char)
  | c1 :: c2 :: rest =>
    if isDigit c1 && isDigit c2 then some (10 * digitVal c1 + digitVal c2, rest)
    else none
  | _ => none

/-- Read a one- or two-digit day number. -/
def takeDay : List Char → Option (ℕ × List Char)
  | c1 :: c2 :: rest =>
    if isDigit c1 then
      if isDigit c2 then some (10 * digitVal c1 + digitVal c2, rest)
      else some (digitVal c1, c2 :: rest)
    else none
  | [c1] => if isDigit c1 then some (digitVal c1, []) else none
  | [] => none

/-- Read a four-digit year. -/
def takeYear : List Char → Option (ℕ × List Char)
  | c1 :: c2 :: c3 :: c4 :: rest =>
    if isDigit c1 && isDigit c2 && isDigit c3 && isDigit c4 then
      some (1000 * digitVal c1 + 100 * digitVal c2 + 10 * digitVal c3 +
        digitVal c4, rest)
    else none
  | _ => none

/-- English three-letter month names of RFC 2822. -/
def monthNum (a b c : Char) : Option ℕ :=
  if a = 'J' ∧ b = 'a' ∧ c = 'n' then some 1
  else if a = 'F' ∧ b = 'e' ∧ c = 'b' then some 2
  else if a = 'M' ∧ b = 'a' ∧ c = 'r' then some 3
  else if a = 'A' ∧ b = 'p' ∧ c = 'r' then some 4
  else if a = 'M' ∧ b = 'a' ∧ c = 'y' then some 5
  else if a = 'J' ∧ b = 'u' ∧ c = 'n' then some 6
  else if a = 'J' ∧ b = 'u' ∧ c = 'l' then some 7
  else if a = 'A' ∧ b = 'u' ∧ c = 'g' then some 8
  else if a = 'S' ∧ b = 'e' ∧ c = 'p' then some 9
  else if a = 'O' ∧ b = 'c' ∧ c = 't' then some 10
  else if a = 'N' ∧ b = 'o' ∧ c = 'v' then some 11
  else if a = 'D' ∧ b = 'e' ∧ c = 'c' then some 12
  else none

/-- English three-letter weekday names of RFC 2822. -/
def isWeekdayName (a b c : Char) : Bool :=
  (a = 'M' && b = 'o' && c = 'n') || (a = 'T' && b = 'u' && c = 'e') ||
  (a = 'W' && b = 'e' && c = 'd') || (a = 'T' && b = 'h' && c = 'u') ||
  (a = 'F' && b = 'r' && c = 'i') || (a = 'S' && b = 'a' && c = 't') ||
  (a = 'S' && b = 'u' && c = 'n')

/-- Strip an optional leading `Ddd, ` weekday. -/
def stripWeekday (cs : List Char) : List Char :=
  match cs with
  | a :: b :: c :: ',' :: ' ' :: rest =>
    if isWeekdayName a b c then rest else cs
  | _ => cs

/-- Read a zone: `+hhmm`, `-hhmm`, `GMT` or `UT`, returning the offset east
of UTC in seconds. -/
def takeZone : List Char → Option (ℤ × List Char)
  | '+' :: rest =>
    match takeDigits2 rest with
    | some (h, rest1) =>
      match takeDigits2 rest1 with
      | some (m, rest2) =>
        if m ≤ 59 then some ((h * 3600 + m * 60 : ℕ), rest2) else none
      | none => none
    | none => none
  | '-' :: rest =>
    match takeDigits2 rest with
    | some (h, rest1) =>
      match takeDigits2 rest1 with
      | some (m, rest2) =>
        if m ≤ 59 then some (-((h * 3600 + m * 60 : ℕ) : ℤ), rest2) else none
      | none => none
    | none => none
  | 'G' :: 'M' :: 'T' :: rest => some (0, rest)
  | 'U' :: 'T' :: rest => some (0, rest)
  | _ => none

/-- Model of chrono's `DateTime::parse_from_rfc2822` on the canonical RFC 2822
profile `[Ddd, ]d Mon yyyy HH:MM:SS zone`; yields the instant in seconds
since the Unix epoch (the value chrono orders and compares by). -/
def parseRfc2822 (s : String) : Option ℤ :=
  match takeDay (stripWeekday s.toList) with
  | none => none
  | some (d, rest1) =>
    match rest1 with
    | ' ' :: ma :: mb :: mc :: ' ' :: rest2 =>
      match monthNum ma mb mc with
      | none => none
      | some m =>
        match takeYear rest2 with
        | none => none
        | some (y, rest3) =>
          match rest3 with
          | ' ' :: rest4 =>
            match takeDigits2 rest4 with
            | none => none
            | some (hh, rest5) =>
              match rest5 with
              | ':' :: rest6 =>
                match takeDigits2 rest6 with
                | none => none
                | some (mi, rest7) =>
                  match rest7 with
                  | ':' :: rest8 =>
                    match takeDigits2 rest8 with
                    | none => none
                    | some (ss, rest9) =>
                      match rest9 with
                      | ' ' :: rest10 =>
                        match takeZone rest10 with
                        | some (off, []) =>
                          if 1 ≤ d ∧ d ≤ daysInMonth y m ∧ 1 ≤ y ∧
                              hh ≤ 23 ∧ mi ≤ 59 ∧ ss ≤ 59 then
                            some (civilToEpochDays y m d * 86400 +
                              (hh * 3600 + mi * 60 + ss : ℕ) - off)
                          else none
                        | _ => none
                      | _ => none
                  | _ => none
              | _ => none
          | _ => none
    | _ => none

/-! ## Client (src/monsoon/src/client.rs) -/

/-- A received HTTP response, as visible to the dispatch logic. -/
structure HttpResponse where
  status : ℕ
  headers : List (String × String)
  body : String
deriving DecidableEq, Repr

/-- ASCII lower-casing of one character. -/
def asciiLower (c : Char) : Char :=
  if 'A' ≤ c ∧ c ≤ 'Z' then Char.ofNat (c.toNat + 32) else c

/-- ASCII lower-casing of a string (header names are ASCII). -/
def strLower (s : String) : String := String.mk (s.toList.map asciiLower)

/-- Header lookup; `reqwest`'s `HeaderMap` is case-insensitive. -/
def findHeader (headers : List (String × String)) (name : String) :
    Option String :=
  (headers.find? (fun p => strLower p.1 = name)).map (·.2)

/-- Model of `http::HeaderValue::from_str`: accepts tab and any byte from 32
on except DEL. -/
def headerValueFromStrOk (s : String) : Bool :=
  s.toList.all fun c => c = '\t' || (32 ≤ c.toNat && c.toNat ≠ 127)

/-- Model of `http::HeaderValue::to_str`: succeeds only on visible ASCII and
spaces. -/
def headerToStr (s : String) : Option String :=
  if s.toList.all (fun c => 32 ≤ c.toNat && c.toNat < 127) then some s
  else none

/-- Outcome of one `fetch` call; Rust panics are explicit, so that aborting
(`expect`) is distinguishable from returning an `Err`. -/
inductive FetchOutcome where
  | ok (response : Response)
  | err (e : Error)
  | panicked (msg : String)
deriving DecidableEq, Repr

/-- True exactly when the outcome is a returned `Ok` record. -/
def FetchOutcome.isOk : FetchOutcome → Bool
  | .ok _ => true
  | _ => false

/-- True exactly when the outcome is a returned `Err` (of any kind). -/
def FetchOutcome.isErr : FetchOutcome → Bool
  | .err _ => true
  | _ => false

/-- Mirror of `create_headers` (client.rs lines 83-96). -/
def create_headers (params : Params) :
    Except Error (List (String × String)) :=
  match params.last_response with
  | none => .ok []
  | some last =>
    if headerValueFromStrOk last.last_modified then
      .ok [("if-modified-since", last.last_modified)]
    else .error (.Request "Unable to serialize a valid last-modified value.")

/-- Mirror of `extract_headers` (client.rs lines 98-119): fetch and validate
the `expires` and `last-modified` headers, then parse `expires` as RFC 2822. -/
def extract_headers (response : HttpResponse) :
    Except Error (Int × String) :=
  match findHeader response.headers "expires" with
  | none => .error (.Response "Missing expires header")
  | some ev =>
    match headerToStr ev with
    | none => .error (.Response "Invalid expires header.")
    | some expires_at =>
      match findHeader response.headers "last-modified" with
      | none => .error (.Response "Missing last-modified header")
      | some lv =>
        match headerToStr lv with
        | none => .error (.Response "Invalid last-modified header.")
        | some last_modified =>
          match parseRfc2822 expires_at with
          | none => .error (.Response "Unable to parse expires header.")
          | some t => .ok (t, last_modified)

/-- Display text of `reqwest`'s status error (`err.to_string()` in the
`error_for_status` branch); the URL tail is elided as a constant. -/
def statusErrorText (status : ℕ) : String :=
  (if 500 ≤ status then "HTTP status server error ("
   else "HTTP status client error (") ++ toString status ++ ") for url"

/-- Mirror of `handle_ok_response` (client.rs lines 121-130); `text()` is
modelled as the already-decoded UTF-8 body. -/
def handle_ok_response (response : HttpResponse) : FetchOutcome :=
  match extract_headers response with
  | .error e => .err e
  | .ok (expires_at, last_modified) =>
    .ok ⟨expires_at, last_modified, response.body⟩

/-- Mirror of `handle_not_modified_response` (client.rs lines 132-147),
including the `.expect("304 only with a valid last response")` panic. -/
def handle_not_modified_response (params : Params)
    (response : HttpResponse) : FetchOutcome :=
  match extract_headers response with
  | .error e => .err e
  | .ok (expires_at, last_modified) =>
    match params.last_response with
    | none => .panicked "304 only with a valid last response"
    | some last => .ok ⟨expires_at, last_modified, last.raw_body⟩

/-- Mirror of `Client::get_from_api` (client.rs lines 36-62). `net` is the
transport outcome: `.error` a send failure, `.ok` the received response.
`response.error_for_status()` yields `Err` exactly for statuses 400-599, so
those statuses reach the `Err` branch and never the status `match`. -/
def Client.get_from_api (params : Params)
    (net : Except String HttpResponse) : FetchOutcome :=
  match create_headers params with
  | .error e => .err e
  | .ok _ =>
    match net with
    | .error msg => .err (.HttpClient msg)
    | .ok response =>
      if 400 ≤ response.status ∧ response.status ≤ 599 then
        .err (.Response (statusErrorText response.status))
      else
        match response.status with
        | 200 => handle_ok_response response
        | 304 => handle_not_modified_response params response
        | 429 => .err (.Response "Too many requests (HTTP 429)")
        | code => .err (.Response ("Unexpected error code: " ++ toString code))

/-- Mirror of `Client::get` (client.rs lines 26-34): locally-fresh prior
records short-circuit; `now` stands for `Utc::now()`. -/
def Client.get (params : Params) (now : Int)
    (net : Except String HttpResponse) : FetchOutcome :=
  match params.last_response with
  | some last =>
    if now < last.expires_at then .ok last
    else Client.get_from_api params net
  | none => Client.get_from_api params net

/-! ## JSON values and parsing (model of serde_json) -/

/-- A parsed JSON document. Numbers are kept as exact rationals (serde_json
narrows them to `f64`; no claim depends on that narrowing). -/
inductive Json where
  | null
  | bool (b : Bool)
  | num (q : ℚ)
  | str (s : String)
  | arr (elements : List Json)
  | obj (members : List (String × Json))

/-- Drop leading JSON whitespace. -/
def skipWs : List Char → List Char
  | c :: rest =>
    if c = ' ' ∨ c = '\n' ∨ c = '\t' ∨ c = '\r' then skipWs rest else c :: rest
  | [] => []

/-- Hexadecimal digit value. -/
def hexVal (c : Char) : Option ℕ :=
  if isDigit c then some (digitVal c)
  else if 'a' ≤ c ∧ c ≤ 'f' then some (c.toNat - 87)
  else if 'A' ≤ c ∧ c ≤ 'F' then some (c.toNat - 55)
  else none

/-- Read the remainder of a JSON string literal (after the opening quote). -/
def parseStringChars : ℕ → List Char → Option (List Char × List Char)
  | 0, _ => none
  | _, [] => none
  | fuel + 1, c :: rest =>
    if c = '"' then some ([], rest)
    else if c = '\\' then
      match rest with
      | e :: rest1 =>
        let esc : Option (Char × List Char) :=
          if e = '"' then some ('"', rest1)
          else if e = '\\' then some ('\\', rest1)
          else if e = '/' then some ('/', rest1)
          else if e = 'n' then some ('\n', rest1)
          else if e = 't' then some ('\t', rest1)
          else if e = 'r' then some ('\r', rest1)
          else if e = 'b' then some ('\x08', rest1)
          else if e = 'f' then some ('\x0c', rest1)
          else if e = 'u' then
            match rest1 with
            | h1 :: h2 :: h3 :: h4 :: rest2 =>
              match hexVal h1, hexVal h2, hexVal h3, hexVal h4 with
              | some a, some b, some c, some d =>
                some (Char.ofNat (4096 * a + 256 * b + 16 * c + d), rest2)
              | _, _, _, _ => none
            | _ => none
          else none
        match esc with
        | some (ch, rest2) =>
          match parseStringChars fuel rest2 with
          | some (cs, rest3) => some (ch :: cs, rest3)
          | none => none
        | none => none
      | [] => none
    else if c.toNat < 32 then none
    else
      match parseStringChars fuel rest with
      | some (cs, rest1) => some (c :: cs, rest1)
      | none => none

/-- Numeric value of a digit run. -/
def digitsToNat (ds : List Char) : ℕ :=
  ds.foldl (fun acc c => 10 * acc + digitVal c) 0

/-- Read a JSON number. -/
def parseNumber (cs : List Char) : Option (ℚ × List Char) :=
  let (neg, cs1) := match cs with
    | '-' :: rest => (true, rest)
    | _ => (false, cs)
  let intDs := cs1.takeWhile isDigit
  let rest1 := cs1.dropWhile isDigit
  if intDs = [] then none
  else
    let (fracDs, rest2) := match rest1 with
      | '.' :: r => (r.takeWhile isDigit, r.dropWhile isDigit)
      | _ => ([], rest1)
    if rest1 ≠ [] ∧ rest1.head? = some '.' ∧ fracDs = [] then none
    else
      let (expOk, expNeg, expDs, rest3) : Bool × Bool × List Char × List Char :=
        match rest2 with
        | 'e' :: '-' :: r => (r.takeWhile isDigit ≠ [], true, r.takeWhile isDigit, r.dropWhile isDigit)
        | 'e' :: '+' :: r => (r.takeWhile isDigit ≠ [], false, r.takeWhile isDigit, r.dropWhile isDigit)
        | 'e' :: r => (r.takeWhile isDigit ≠ [], false, r.takeWhile isDigit, r.dropWhile isDigit)
        | 'E' :: '-' :: r => (r.takeWhile isDigit ≠ [], true, r.takeWhile isDigit, r.dropWhile isDigit)
        | 'E' :: '+' :: r => (r.takeWhile isDigit ≠ [], false, r.takeWhile isDigit, r.dropWhile isDigit)
        | 'E' :: r => (r.takeWhile isDigit ≠ [], false, r.takeWhile isDigit, r.dropWhile isDigit)
        | _ => (true, false, [], rest2)
      if !expOk then none
      else
        let mantissa : ℚ :=
          (digitsToNat intDs : ℚ) +
            (digitsToNat fracDs : ℚ) / ((10 ^ fracDs.length : ℕ) : ℚ)
        let scaled : ℚ :=
          if expNeg then mantissa / ((10 ^ digitsToNat expDs : ℕ) : ℚ)
          else mantissa * ((10 ^ digitsToNat expDs : ℕ) : ℚ)
        some (if neg then -scaled else scaled, rest3)

mutual

/-- Read one JSON value (leading whitespace allowed). -/
def parseValue : ℕ → List Char → Option (Json × List Char)
  | 0, _ => none
  | fuel + 1, cs =>
    match skipWs cs with
    | [] => none
    | c :: rest =>
      if c = '{' then
        parseMembers fuel rest
      else if c = '[' then
        parseElements fuel rest
      else if c = '"' then
        match parseStringChars fuel rest with
        | some (body, rest1) => some (.str (String.mk body), rest1)
        | none => none
      else if c = 't' then
        match rest with
        | 'r' :: 'u' :: 'e' :: rest1 => some (.bool true, rest1)
        | _ => none
      else if c = 'f' then
        match rest with
        | 'a' :: 'l' :: 's' :: 'e' :: rest1 => some (.bool false, rest1)
        | _ => none
      else if c = 'n' then
        match rest with
        | 'u' :: 'l' :: 'l' :: rest1 => some (.null, rest1)
        | _ => none
      else if c = '-' ∨ isDigit c then
        match parseNumber (c :: rest) with
        | some (q, rest1) => some (.num q, rest1)
        | none => none
      else none

/-- Read object members after `{` (or the immediate `}`). -/
def parseMembers : ℕ → List Char → Option (Json × List Char)
  | 0, _ => none
  | fuel + 1, cs =>
    match skipWs cs with
    | '}' :: rest => some (.obj [], rest)
    | _ => parseMembersRest fuel (skipWs cs) []

/-- Read a comma-separated member list ending in `}`. `acc` is reversed. -/
def parseMembersRest : ℕ → List Char → List (String × Json) →
    Option (Json × List Char)
  | 0, _, _ => none
  | fuel + 1, cs, acc =>
    match skipWs cs with
    | '"' :: rest =>
      match parseStringChars fuel rest with
      | some (key, rest1) =>
        match skipWs rest1 with
        | ':' :: rest2 =>
          match parseValue fuel rest2 with
          | some (v, rest3) =>
            match skipWs rest3 with
            | ',' :: rest4 =>
              parseMembersRest fuel rest4 ((String.mk key, v) :: acc)
            | '}' :: rest4 =>
              some (.obj (((String.mk key, v) :: acc).reverse), rest4)
            | _ => none
          | none => none
        | _ => none
      | none => none
    | _ => none

/-- Read array elements after `[` (or the immediate `]`). -/
def parseElements : ℕ → List Char → Option (Json × List Char)
  | 0, _ => none
  | fuel + 1, cs =>
    match skipWs cs with
    | ']' :: rest => some (.arr [], rest)
    | _ => parseElementsRest fuel (skipWs cs) []

/-- Read a comma-separated element list ending in `]`. `acc` is reversed. -/
def parseElementsRest : ℕ → List Char → List Json →
    Option (Json × List Char)
  | 0, _, _ => none
  | fuel + 1, cs, acc =>
    match parseValue fuel cs with
    | some (v, rest) =>
      match skipWs rest with
      | ',' :: rest1 => parseElementsRest fuel rest1 (v :: acc)
      | ']' :: rest1 => some (.arr ((v :: acc).reverse), rest1)
      | _ => none
    | none => none

end

/-- Model of serde_json's parsing stage: a whole String to a `Json` value
(trailing non-whitespace is an error, as in serde_json). -/
def parseJsonStr (s : String) : Except String Json :=
  let cs := s.toList
  match parseValue (2 * cs.length + 4) cs with
  | some (j, rest) =>
    if skipWs rest = [] then .ok j else .error "trailing characters"
  | none => .error "invalid JSON"

/-! ## Typed body decoding (src/monsoon/src/body.rs) -/

/-- Model of chrono's RFC 3339 parsing used by serde for `DateTime<Utc>`
fields (`YYYY-MM-DDTHH:MM:SS[.fff](Z|+hh:mm|-hh:mm)`); fractional seconds
are accepted and dropped; yields seconds since the Unix epoch. -/
def parseRfc3339 (s : String) : Option ℤ :=
  match s.toList with
  | y1 :: y2 :: y3 :: y4 :: '-' :: m1 :: m2 :: '-' :: d1 :: d2 :: t ::
      h1 :: h2 :: ':' :: mi1 :: mi2 :: ':' :: s1 :: s2 :: rest =>
    if isDigit y1 ∧ isDigit y2 ∧ isDigit y3 ∧ isDigit y4 ∧ isDigit m1 ∧
        isDigit m2 ∧ isDigit d1 ∧ isDigit d2 ∧ (t = 'T' ∨ t = 't') ∧
        isDigit h1 ∧ isDigit h2 ∧ isDigit mi1 ∧ isDigit mi2 ∧
        isDigit s1 ∧ isDigit s2 then
      let y := 1000 * digitVal y1 + 100 * digitVal y2 + 10 * digitVal y3 +
        digitVal y4
      let m := 10 * digitVal m1 + digitVal m2
      let d := 10 * digitVal d1 + digitVal d2
      let hh := 10 * digitVal h1 + digitVal h2
      let mi := 10 * digitVal mi1 + digitVal mi2
      let ss := 10 * digitVal s1 + digitVal s2
      let rest1 := match rest with
        | '.' :: r => if r.takeWhile isDigit = [] then ['.']
                      else r.dropWhile isDigit
        | _ => rest
      let off : Option ℤ := match rest1 with
        | ['Z'] => some 0
        | ['z'] => some 0
        | sgn :: o1 :: o2 :: ':' :: o3 :: o4 :: [] =>
          if (sgn = '+' ∨ sgn = '-') ∧ isDigit o1 ∧ isDigit o2 ∧
              isDigit o3 ∧ isDigit o4 then
            let v : ℤ := ((10 * digitVal o1 + digitVal o2) * 3600 +
              (10 * digitVal o3 + digitVal o4) * 60 : ℕ)
            some (if sgn = '-' then -v else v)
          else none
        | _ => none
      match off with
      | some o =>
        if 1 ≤ m ∧ m ≤ 12 ∧ 1 ≤ d ∧ d ≤ daysInMonth y m ∧ 1 ≤ y ∧
            hh ≤ 23 ∧ mi ≤ 59 ∧ ss ≤ 59 then
          some (civilToEpochDays y m d * 86400 +
            (hh * 3600 + mi * 60 + ss : ℕ) - o)
        else none
      | none => none
    else none
  | _ => none

/-- First member with the given key (serde's field lookup). -/
def getField (members : List (String × Json)) (name : String) : Option Json :=
  (members.find? (fun p => p.1 = name)).map (·.2)

/-- Decode a JSON string (serde `&str` / `String`). -/
def decodeString : Json → Except String String
  | .str s => .ok s
  | _ => .error "invalid type: expected string"

/-- Decode a JSON number (serde `f64`). -/
def decodeNum : Json → Except String ℚ
  | .num q => .ok q
  | _ => .error "invalid type: expected number"

/-- Decode a `DateTime<Utc>` field (chrono deserializes RFC 3339 strings). -/
def decodeDateTime : Json → Except String Int
  | .str s =>
    match parseRfc3339 s with
    | some t => .ok t
    | none => .error "invalid RFC 3339 datetime"
  | _ => .error "invalid type: expected string"

/-- Required struct field: missing is an error (serde derive). -/
def reqField (members : List (String × Json)) (name : String)
    (dec : Json → Except String α) : Except String α :=
  match getField members name with
  | none => .error ("missing field " ++ name)
  | some j => dec j

/-- `Option` struct field: missing and `null` both decode to `none`
(serde derive). -/
def optField (members : List (String × Json)) (name : String)
    (dec : Json → Except String α) : Except String (Option α) :=
  match getField members name with
  | none => .ok none
  | some .null => .ok none
  | some j => (dec j).map some

/-- Require a JSON object (serde struct deserialization). -/
def asObj : Json → Except String (List (String × Json))
  | .obj members => .ok members
  | _ => .error "invalid type: expected object"

/-- Decode each element of a JSON array. -/
def decodeListAux (dec : Json → Except String α) :
    List Json → Except String (List α)
  | [] => .ok []
  | x :: rest => do
    let v ← dec x
    let vs ← decodeListAux dec rest
    return v :: vs

/-- Decode a JSON array (serde `Box<[T]>` / `Vec<T>`). -/
def decodeArr (dec : Json → Except String α) : Json → Except String (List α)
  | .arr xs => decodeListAux dec xs
  | _ => .error "invalid type: expected array"

namespace body

/-- Mirror of body.rs `Units` (all fields `Option<&str>`). -/
structure Units where
  air_pressure_at_sea_level : Option String
  air_temperature : Option String
  air_temperature_max : Option String
  air_temperature_min : Option String
  cloud_area_fraction : Option String
  cloud_area_fraction_high : Option String
  cloud_area_fraction_low : Option String
  cloud_area_fraction_medium : Option String
  dew_point_temperature : Option String
  fog_area_fraction : Option String
  precipitation_amount : Option String
  relative_humidity : Option String
  ultraviolet_index_clear_sky : Option String
  wind_from_direction : Option String
  wind_speed : Option String
deriving DecidableEq, Repr

/-- Mirror of body.rs `InstantDetails` (all fields `Option<f64>`). -/
structure InstantDetails where
  air_pressure_at_sea_level : Option ℚ
  air_temperature : Option ℚ
  cloud_area_fraction : Option ℚ
  cloud_area_fraction_high : Option ℚ
  cloud_area_fraction_low : Option ℚ
  cloud_area_fraction_medium : Option ℚ
  dew_point_temperature : Option ℚ
  fog_area_fraction : Option ℚ
  relative_humidity : Option ℚ
  ultraviolet_index_clear_sky : Option ℚ
  wind_from_direction : Option ℚ
  wind_speed : Option ℚ
deriving DecidableEq, Repr

/-- Mirror of body.rs `Instant` (`details` required). -/
structure Instant where
  details : InstantDetails
deriving DecidableEq, Repr

/-- Mirror of body.rs `SummaryDetails` (all fields `Option<f64>`). -/
structure SummaryDetails where
  air_temperature_max : Option ℚ
  air_temperature_min : Option ℚ
  precipitation_amount : Option ℚ
  precipitation_amount_max : Option ℚ
  precipitation_amount_min : Option ℚ
  probability_of_precipitation : Option ℚ
  probability_of_thunder : Option ℚ
  ultraviolet_index_clear_sky_max : Option ℚ
deriving DecidableEq, Repr

/-- Mirror of body.rs `Summary` (`symbol_code` required). -/
structure Summary where
  symbol_code : String
deriving DecidableEq, Repr

/-- Mirror of body.rs `NextHours`: `details` is `Option<SummaryDetails>`
("Not optional in the docs but the API doesn't return it in all cases"),
`summary` is required. -/
structure NextHours where
  details : Option SummaryDetails
  summary : Summary
deriving DecidableEq, Repr

/-- Mirror of body.rs `Data`: `instant` required, the three `next_*_hours`
summaries optional. -/
structure Data where
  instant : Instant
  next_12_hours : Option NextHours
  next_1_hours : Option NextHours
  next_6_hours : Option NextHours
deriving DecidableEq, Repr

/-- Mirror of body.rs `TimeSeries`. -/
structure TimeSeries where
  time : Int
  data : Data
deriving DecidableEq, Repr

/-- Mirror of body.rs `Meta`. -/
structure Meta where
  updated_at : Int
  units : Units
deriving DecidableEq, Repr

/-- Mirror of body.rs `Properties`. -/
structure Properties where
  meta : Meta
  timeseries : List TimeSeries
deriving DecidableEq, Repr

/-- Mirror of body.rs `Coordinates` (all three coordinates required). -/
structure Coordinates where
  longitude : ℚ
  latitude : ℚ
  altitude : ℚ
deriving DecidableEq, Repr

/-- Mirror of body.rs `Geometry` (`type` is renamed to `type_field`). -/
structure Geometry where
  type_field : String
  coordinates : Coordinates
deriving DecidableEq, Repr

/-- Mirror of body.rs `Body` (`type` renamed; `geometry` and `properties`
required). -/
structure Body where
  type_field : String
  geometry : Geometry
  properties : Properties
deriving DecidableEq, Repr

/-- Serde-derive deserializer for `Units`. -/
def decodeUnits (j : Json) : Except String Units := do
  let ms ← asObj j
  let f01 ← optField ms "air_pressure_at_sea_level" decodeString
  let f02 ← optField ms "air_temperature" decodeString
  let f03 ← optField ms "air_temperature_max" decodeString
  let f04 ← optField ms "air_temperature_min" decodeString
  let f05 ← optField ms "cloud_area_fraction" decodeString
  let f06 ← optField ms "cloud_area_fraction_high" decodeString
  let f07 ← optField ms "cloud_area_fraction_low" decodeString
  let f08 ← optField ms "cloud_area_fraction_medium" decodeString
  let f09 ← optField ms "dew_point_temperature" decodeString
  let f10 ← optField ms "fog_area_fraction" decodeString
  let f11 ← optField ms "precipitation_amount" decodeString
  let f12 ← optField ms "relative_humidity" decodeString
  let f13 ← optField ms "ultraviolet_index_clear_sky" decodeString
  let f14 ← optField ms "wind_from_direction" decodeString
  let f15 ← optField ms "wind_speed" decodeString
  return ⟨f01, f02, f03, f04, f05, f06, f07, f08, f09, f10, f11, f12, f13,
    f14, f15⟩

/-- Serde-derive deserializer for `InstantDetails`. -/
def decodeInstantDetails (j : Json) : Except String InstantDetails := do
  let ms ← asObj j
  let f01 ← optField ms "air_pressure_at_sea_level" decodeNum
  let f02 ← optField ms "air_temperature" decodeNum
  let f03 ← optField ms "cloud_area_fraction" decodeNum
  let f04 ← optField ms "cloud_area_fraction_high" decodeNum
  let f05 ← optField ms "cloud_area_fraction_low" decodeNum
  let f06 ← optField ms "cloud_area_fraction_medium" decodeNum
  let f07 ← optField ms "dew_point_temperature" decodeNum
  let f08 ← optField ms "fog_area_fraction" decodeNum
  let f09 ← optField ms "relative_humidity" decodeNum
  let f10 ← optField ms "ultraviolet_index_clear_sky" decodeNum
  let f11 ← optField ms "wind_from_direction" decodeNum
  let f12 ← optField ms "wind_speed" decodeNum
  return ⟨f01, f02, f03, f04, f05, f06, f07, f08, f09, f10, f11, f12⟩

/-- Serde-derive deserializer for `Instant` (`details` required). -/
def decodeInstant (j : Json) : Except String Instant := do
  let ms ← asObj j
  let d ← reqField ms "details" decodeInstantDetails
  return ⟨d⟩

/-- Serde-derive deserializer for `SummaryDetails`. -/
def decodeSummaryDetails (j : Json) : Except String SummaryDetails := do
  let ms ← asObj j
  let f01 ← optField ms "air_temperature_max" decodeNum
  let f02 ← optField ms "air_temperature_min" decodeNum
  let f03 ← optField ms "precipitation_amount" decodeNum
  let f04 ← optField ms "precipitation_amount_max" decodeNum
  let f05 ← optField ms "precipitation_amount_min" decodeNum
  let f06 ← optField ms "probability_of_precipitation" decodeNum
  let f07 ← optField ms "probability_of_thunder" decodeNum
  let f08 ← optField ms "ultraviolet_index_clear_sky_max" decodeNum
  return ⟨f01, f02, f03, f04, f05, f06, f07, f08⟩

/-- Serde-derive deserializer for `Summary` (`symbol_code` required). -/
def decodeSummary (j : Json) : Except String Summary := do
  let ms ← asObj j
  let s ← reqField ms "symbol_code" decodeString
  return ⟨s⟩

/-- Serde-derive deserializer for `NextHours`: the `details` field is
tolerated as absent (`Option`), `summary` is required. -/
def decodeNextHours (j : Json) : Except String NextHours := do
  let ms ← asObj j
  let d ← optField ms "details" decodeSummaryDetails
  let s ← reqField ms "summary" decodeSummary
  return ⟨d, s⟩

/-- Serde-derive deserializer for `Data`. -/
def decodeData (j : Json) : Except String Data := do
  let ms ← asObj j
  let i ← reqField ms "instant" decodeInstant
  let h12 ← optField ms "next_12_hours" decodeNextHours
  let h1 ← optField ms "next_1_hours" decodeNextHours
  let h6 ← optField ms "next_6_hours" decodeNextHours
  return ⟨i, h12, h1, h6⟩

/-- Serde-derive deserializer for `TimeSeries`. -/
def decodeTimeSeries (j : Json) : Except String TimeSeries := do
  let ms ← asObj j
  let t ← reqField ms "time" decodeDateTime
  let d ← reqField ms "data" decodeData
  return ⟨t, d⟩

/-- Serde-derive deserializer for `Meta`. -/
def decodeMeta (j : Json) : Except String Meta := do
  let ms ← asObj j
  let u ← reqField ms "updated_at" decodeDateTime
  let un ← reqField ms "units" decodeUnits
  return ⟨u, un⟩

/-- Serde-derive deserializer for `Properties`. -/
def decodeProperties (j : Json) : Except String Properties := do
  let ms ← asObj j
  let m ← reqField ms "meta" decodeMeta
  let ts ← reqField ms "timeseries" (decodeArr decodeTimeSeries)
  return ⟨m, ts⟩

/-- Serde-derive deserializer for `Coordinates`. -/
def decodeCoordinates (j : Json) : Except String Coordinates := do
  let ms ← asObj j
  let lo ← reqField ms "longitude" decodeNum
  let la ← reqField ms "latitude" decodeNum
  let al ← reqField ms "altitude" decodeNum
  return ⟨lo, la, al⟩

/-- Serde-derive deserializer for `Geometry`. -/
def decodeGeometry (j : Json) : Except String Geometry := do
  let ms ← asObj j
  let t ← reqField ms "type" decodeString
  let c ← reqField ms "coordinates" decodeCoordinates
  return ⟨t, c⟩

/-- Serde-derive deserializer for `Body`: the required structural fields are
`type` (renamed), `geometry` and `properties`. -/
def decodeBody (j : Json) : Except String Body := do
  let ms ← asObj j
  let t ← reqField ms "type" decodeString
  let g ← reqField ms "geometry" decodeGeometry
  let p ← reqField ms "properties" decodeProperties
  return ⟨t, g, p⟩

end body

/-- Mirror of `Response::body` (monsoon.rs lines 104-107):
`serde_json::from_str::<Body>(&self.raw_body).map_err(Into::into)`. -/
def Response.body (r : Response) : Except Error body.Body :=
  match (parseJsonStr r.raw_body).bind body.decodeBody with
  | .ok b => .ok b
  | .error msg => .error (.ResponseBody msg)

deriving instance DecidableEq for Except

/-- True exactly on `Except.ok`. -/
def exceptIsOk : Except ε α → Bool
  | .ok _ => true
  | .error _ => false

/-- Finiteness together with a magnitude bound, as a decidable check. -/
def F64.finiteAbsLe (x : F64) (bound : ℚ) : Bool :=
  match x with
  | .finite q => decide (|q| ≤ bound)
  | _ => false

/-- The altitude validity check of `Params` as a decidable predicate. -/
def altInRange : Option Int → Bool
  | none => true
  | some a => decide (-500 ≤ a ∧ a ≤ 9000)

/-- A minimal well-formed body payload, used as a concrete witness input. -/
def sampleBodyStr : String :=
  "\x7b\"type\":\"Feature\",\"geometry\":\x7b\"type\":\"Point\",\"coordinates\":\x7b\"longitude\":14.1,\"latitude\":50.0,\"altitude\":300\x7d\x7d,\"properties\":\x7b\"meta\":\x7b\"updated_at\":\"2024-01-01T00:00:00Z\",\"units\":\x7b\x7d\x7d,\"timeseries\":[]\x7d\x7d"

/-- The decoded form of `sampleBodyStr`. -/
def sampleBody : body.Body :=
  ⟨"Feature", ⟨"Point", ⟨141 / 10, 50, 300⟩⟩,
    ⟨⟨1704067200, ⟨none, none, none, none, none, none, none, none, none,
      none, none, none, none, none, none⟩⟩, []⟩⟩

/-! ## Helper lemmas -/

/-- Reduction of `Except` bind on a success value. -/
lemma except_bind_ok (x : α) (k : α → Except ε β) :
    (Except.ok x >>= k) = k x := rfl

/-- Reduction of `Except` bind on an error value. -/
lemma except_bind_error (e : ε) (k : α → Except ε β) :
    ((Except.error e : Except ε α) >>= k) = .error e := rfl

/-- Reduction of `Except` map on a success value. -/
lemma except_map_ok (f : α → β) (x : α) :
    (f <$> (Except.ok x : Except ε α)) = .ok (f x) := rfl

/-- Reduction of `Except` map on an error value. -/
lemma except_map_error (f : α → β) (e : ε) :
    (f <$> (Except.error e : Except ε α)) = .error e := rfl

/-- Every `extract_headers` failure is an `Error::Response` with one of the
five header-error messages. -/
lemma extract_headers_error_shape (resp : HttpResponse) (e : Error)
    (h : extract_headers resp = .error e) :
    e = .Response "Missing expires header" ∨
    e = .Response "Invalid expires header." ∨
    e = .Response "Missing last-modified header" ∨
    e = .Response "Invalid last-modified header." ∨
    e = .Response "Unable to parse expires header." := by
  unfold extract_headers at h
  repeat' split at h
  all_goals first
    | exact Except.noConfusion h
    | (injection h with h; subst h; tauto)

/-! ## Claim theorems -/

/-- C3: when a prior record is attached and its freshness deadline is
strictly later than the current time, `fetch` returns that record unchanged
for every possible transport outcome — i.e. without any network I/O. -/
theorem freshness_short_circuit (params : Params) (now : Int) (r : Response)
    (hprior : params.last_response = some r) (hfresh : now < r.expires_at)
    (net : Except String HttpResponse) :
    Client.get params now net = .ok r := by
  unfold Client.get
  rw [hprior]
  simp [hfresh]

/-- Witness for C3: a concrete fresh record is returned untouched even when
the transport would fail outright. -/
theorem freshness_short_circuit_witness :
    Client.get ⟨.finite 50, .finite 14, none, some ⟨100, "lm", "cached"⟩⟩ 0
      (.error "network unreachable") = .ok ⟨100, "lm", "cached"⟩ :=
  freshness_short_circuit _ 0 ⟨100, "lm", "cached"⟩ rfl (by decide) _

/-- C4: with a stale prior record, a 304 answer carrying valid `expires` and
`last-modified` headers produces a record that reuses the prior `raw_body`
byte-for-byte while taking `expires_at` and `last_modified` from the 304
response's headers. -/
theorem conditional_revalidation (params : Params) (now : Int)
    (prior : Response) (resp : HttpResponse) (t : Int) (lm : String)
    (hs : List (String × String))
    (hprior : params.last_response = some prior)
    (hstale : ¬now < prior.expires_at)
    (hhdrs : create_headers params = .ok hs)
    (hstatus : resp.status = 304)
    (hex : extract_headers resp = .ok (t, lm)) :
    Client.get params now (.ok resp) = .ok ⟨t, lm, prior.raw_body⟩ := by
  simp only [Client.get, hprior]
  rw [if_neg hstale]
  unfold Client.get_from_api
  rw [hhdrs]
  simp only [hstatus, show ¬(400 ≤ 304 ∧ 304 ≤ 599) by omega, if_false,
    ite_false, if_neg]
  unfold handle_not_modified_response
  rw [hex, hprior]

/-- Witness for C4: a concrete stale record revalidated by a concrete 304. -/
theorem conditional_revalidation_witness :
    Client.get
      ⟨.finite 50, .finite 14, none,
        some ⟨0, "Thu, 01 Jan 1970 00:00:00 GMT", "cached-bytes"⟩⟩ 5
      (.ok ⟨304,
        [("expires", "Mon, 01 Jan 2024 00:00:00 GMT"),
         ("last-modified", "Sun, 31 Dec 2023 23:00:00 GMT")], ""⟩) =
      .ok ⟨1704067200, "Sun, 31 Dec 2023 23:00:00 GMT", "cached-bytes"⟩ :=
  conditional_revalidation _ 5 ⟨0, "Thu, 01 Jan 1970 00:00:00 GMT",
      "cached-bytes"⟩ _ 1704067200 "Sun, 31 Dec 2023 23:00:00 GMT"
    [("if-modified-since", "Thu, 01 Jan 1970 00:00:00 GMT")] rfl (by decide)
    (by decide) rfl (by decide)

/-- C2 (counterexample): a 304 with valid headers but no prior record makes
`fetch` panic (`expect`), which is not an `Err` of any kind — in particular
not `MalformedResponse`. -/
theorem not_modified_without_prior_cex :
    Client.get ⟨.finite 50, .finite 14, none, none⟩ 0
        (.ok ⟨304, [("expires", "Mon, 01 Jan 2024 00:00:00 GMT"),
          ("last-modified", "Mon, 01 Jan 2024 00:00:00 GMT")], ""⟩) =
      .panicked "304 only with a valid last response" ∧
    FetchOutcome.isErr (Client.get ⟨.finite 50, .finite 14, none, none⟩ 0
        (.ok ⟨304, [("expires", "Mon, 01 Jan 2024 00:00:00 GMT"),
          ("last-modified", "Mon, 01 Jan 2024 00:00:00 GMT")], ""⟩)) =
      false := by decide

/-- C2 (amended): whenever the origin answers 304 with headers that validate,
while no prior record is attached, `fetch` panics with the `expect` message
`304 only with a valid last response` instead of returning an error. -/
theorem not_modified_without_prior_panics (params : Params) (now : Int)
    (resp : HttpResponse) (t : Int) (lm : String)
    (hprior : params.last_response = none)
    (hstatus : resp.status = 304)
    (hex : extract_headers resp = .ok (t, lm)) :
    Client.get params now (.ok resp) =
      .panicked "304 only with a valid last response" := by
  unfold Client.get
  rw [hprior]
  unfold Client.get_from_api
  unfold create_headers
  rw [hprior]
  simp only [hstatus, show ¬(400 ≤ 304 ∧ 304 ≤ 599) by omega, if_false,
    ite_false, if_neg]
  unfold handle_not_modified_response
  rw [hex, hprior]

/-- Witness for C2's amended theorem at a concrete 304 exchange. -/
theorem not_modified_without_prior_panics_witness :
    Client.get ⟨.finite 50, .finite 14, none, none⟩ 7
        (.ok ⟨304, [("expires", "Mon, 01 Jan 2024 00:00:00 GMT"),
          ("last-modified", "Sun, 31 Dec 2023 23:00:00 GMT")], ""⟩) =
      .panicked "304 only with a valid last response" :=
  not_modified_without_prior_panics _ 7 _ 1704067200
    "Sun, 31 Dec 2023 23:00:00 GMT" rfl rfl (by decide)

/-- C1 (code evaluation at the failing input): a completed 429 exchange is
consumed by `error_for_status`, so `fetch` returns the blanket
`Error::Response` carrying reqwest's status-error text; the dedicated
`Too many requests (HTTP 429)` arm is unreachable, and the outcome has the
same error shape as any other 4xx/5xx status (here 500). No record is
produced. -/
theorem rate_limited_routes_through_status_error :
    Client.get_from_api ⟨.finite 50, .finite 14, none, none⟩
        (.ok ⟨429, [], ""⟩) = .err (.Response (statusErrorText 429)) ∧
    statusErrorText 429 ≠ "Too many requests (HTTP 429)" ∧
    Client.get_from_api ⟨.finite 50, .finite 14, none, none⟩
        (.ok ⟨500, [], ""⟩) = .err (.Response (statusErrorText 500)) ∧
    FetchOutcome.isOk (Client.get_from_api ⟨.finite 50, .finite 14, none,
      none⟩ (.ok ⟨429, [], ""⟩)) = false ∧
    Client.get ⟨.finite 50, .finite 14, none, some ⟨0, "lm", "cached"⟩⟩ 5
        (.ok ⟨429, [], ""⟩) = .err (.Response (statusErrorText 429)) := by
  decide

/-- C5: on a completed 200 or 304 exchange whose `expires` or
`last-modified` header is missing, non-ASCII or unparsable, `fetch` returns
exactly the header-validation `Error::Response` (the spec's
`MalformedResponse`) and produces no record. -/
theorem malformed_headers_rejected (params : Params) (resp : HttpResponse)
    (e : Error) (hs : List (String × String))
    (hstatus : resp.status = 200 ∨ resp.status = 304)
    (hex : extract_headers resp = .error e)
    (hhdrs : create_headers params = .ok hs) :
    Client.get_from_api params (.ok resp) = .err e ∧
    (e = .Response "Missing expires header" ∨
     e = .Response "Invalid expires header." ∨
     e = .Response "Missing last-modified header" ∨
     e = .Response "Invalid last-modified header." ∨
     e = .Response "Unable to parse expires header.") := by
  refine ⟨?_, extract_headers_error_shape resp e hex⟩
  unfold Client.get_from_api
  rw [hhdrs]
  rcases hstatus with h | h
  · simp only [h, show ¬(400 ≤ 200 ∧ 200 ≤ 599) by omega, if_false,
      ite_false, if_neg]
    unfold handle_ok_response
    rw [hex]
  · simp only [h, show ¬(400 ≤ 304 ∧ 304 ≤ 599) by omega, if_false,
      ite_false, if_neg]
    unfold handle_not_modified_response
    rw [hex]

/-- Witness for C5: a concrete 200 response with no `expires` header is
rejected with the missing-header error. -/
theorem malformed_headers_rejected_witness :
    Client.get_from_api ⟨.finite 50, .finite 14, none, none⟩
        (.ok ⟨200, [("last-modified", "Sun, 31 Dec 2023 23:00:00 GMT")],
          "irrelevant"⟩) =
      .err (.Response "Missing expires header") :=
  (malformed_headers_rejected ⟨.finite 50, .finite 14, none, none⟩ _ _ []
    (Or.inl rfl) (by decide) rfl).1

/-- C9: body decoding is a pure function of the raw bytes — decoding the
same record twice yields the same outcome, and two successful decodes are
structurally equal. -/
theorem body_decode_deterministic (r : Response) :
    Response.body r = Response.body r ∧
    (∀ b₁ b₂ : body.Body, Response.body r = .ok b₁ →
      Response.body r = .ok b₂ → b₁ = b₂) :=
  ⟨rfl, fun _ _ h₁ h₂ => by rw [h₁] at h₂; injection h₂⟩

/-- Witness for C9 on a concrete well-formed payload. -/
theorem body_decode_deterministic_witness :
    Response.body ⟨0, "lm", sampleBodyStr⟩ = .ok sampleBody ∧
    sampleBody = sampleBody := by
  have h : Response.body ⟨0, "lm", sampleBodyStr⟩ = .ok sampleBody := by
    decide
  exact ⟨h, (body_decode_deterministic ⟨0, "lm", sampleBodyStr⟩).2
    sampleBody sampleBody h h⟩

/-- C8: `NextHours` decoding tolerates a missing `details` member (the field
decodes to `none`), and each of the three `next_*_hours` slots of `Data`
decodes through it; decoding fails whenever a required structural field
(`type`, `geometry` or `properties`) is missing from the payload object. -/
theorem details_optional_structure_required :
    (∀ ms (js : Json) (sm : body.Summary),
      getField ms "details" = none →
      getField ms "summary" = some js →
      body.decodeSummary js = .ok sm →
      body.decodeNextHours (.obj ms) = .ok ⟨none, sm⟩) ∧
    (∀ ms, getField ms "type" = none →
      ∃ msg, body.decodeBody (.obj ms) = .error msg) ∧
    (∀ ms, getField ms "geometry" = none →
      ∃ msg, body.decodeBody (.obj ms) = .error msg) ∧
    (∀ ms, getField ms "properties" = none →
      ∃ msg, body.decodeBody (.obj ms) = .error msg) ∧
    body.decodeData (.obj [("instant", .obj [("details", .obj [])]),
        ("next_1_hours", .obj [("summary",
          .obj [("symbol_code", .str "c")])])]) =
      .ok ⟨⟨⟨none, none, none, none, none, none, none, none, none, none,
        none, none⟩⟩, none, some ⟨none, ⟨"c"⟩⟩, none⟩ ∧
    body.decodeData (.obj [("instant", .obj [("details", .obj [])]),
        ("next_6_hours", .obj [("summary",
          .obj [("symbol_code", .str "c")])])]) =
      .ok ⟨⟨⟨none, none, none, none, none, none, none, none, none, none,
        none, none⟩⟩, none, none, some ⟨none, ⟨"c"⟩⟩⟩ ∧
    body.decodeData (.obj [("instant", .obj [("details", .obj [])]),
        ("next_12_hours", .obj [("summary",
          .obj [("symbol_code", .str "c")])])]) =
      .ok ⟨⟨⟨none, none, none, none, none, none, none, none, none, none,
        none, none⟩⟩, some ⟨none, ⟨"c"⟩⟩, none, none⟩ := by
  refine ⟨?_, ?_, ?_, ?_, by decide, by decide, by decide⟩
  · intro ms js sm hd hsum hs
    simp [body.decodeNextHours, asObj, optField, reqField, hd, hsum, hs,
      except_bind_ok, except_bind_error, except_map_ok, except_map_error]
  · intro ms h
    exact ⟨"missing field " ++ "type",
      by simp [body.decodeBody, asObj, reqField, h, except_bind_ok, except_bind_error, except_map_ok, except_map_error]⟩
  · intro ms h
    cases hty : getField ms "type" with
    | none =>
      exact ⟨"missing field " ++ "type",
        by simp [body.decodeBody, asObj, reqField, hty, except_bind_ok, except_bind_error, except_map_ok, except_map_error]⟩
    | some jt =>
      cases hts : decodeString jt with
      | error m =>
        exact ⟨m, by simp [body.decodeBody, asObj, reqField, hty, hts,
          except_bind_ok, except_bind_error, except_map_ok, except_map_error]⟩
      | ok ts =>
        exact ⟨"missing field " ++ "geometry",
          by simp [body.decodeBody, asObj, reqField, hty, hts, h,
            except_bind_ok, except_bind_error, except_map_ok, except_map_error]⟩
  · intro ms h
    cases hty : getField ms "type" with
    | none =>
      exact ⟨"missing field " ++ "type",
        by simp [body.decodeBody, asObj, reqField, hty, except_bind_ok, except_bind_error, except_map_ok, except_map_error]⟩
    | some jt =>
      cases hts : decodeString jt with
      | error m =>
        exact ⟨m, by simp [body.decodeBody, asObj, reqField, hty, hts,
          except_bind_ok, except_bind_error, except_map_ok, except_map_error]⟩
      | ok ts =>
        cases hg : getField ms "geometry" with
        | none =>
          exact ⟨"missing field " ++ "geometry",
            by simp [body.decodeBody, asObj, reqField, hty, hts, hg,
              except_bind_ok, except_bind_error, except_map_ok, except_map_error]⟩
        | some jg =>
          cases hgd : body.decodeGeometry jg with
          | error m =>
            exact ⟨m, by simp [body.decodeBody, asObj, reqField, hty, hts,
              hg, hgd, except_bind_ok, except_bind_error, except_map_ok, except_map_error]⟩
          | ok g =>
            exact ⟨"missing field " ++ "properties",
              by simp [body.decodeBody, asObj, reqField, hty, hts, hg, hgd,
                h, except_bind_ok, except_bind_error, except_map_ok, except_map_error]⟩

/-- Witness for C8: a `next_*_hours` object with no `details` member decodes
with the field absent, and an empty payload object fails to decode. -/
theorem details_optional_structure_required_witness :
    body.decodeNextHours
        (.obj [("summary", .obj [("symbol_code", .str "cloudy")])]) =
      .ok ⟨none, ⟨"cloudy"⟩⟩ ∧
    exceptIsOk (body.decodeBody (.obj [])) = false := by
  refine ⟨details_optional_structure_required.1 _ _ _ rfl rfl (by decide),
    ?_⟩
  obtain ⟨msg, hmsg⟩ := details_optional_structure_required.2.1 [] rfl
  rw [hmsg]
  rfl

/-- C7: coordinates are stored truncated (not rounded) to 4 decimal places
through `(x * 10000.0).trunc() / 10000.0`, exactly: the binary64 value of
`14.1234567` normalizes to the binary64 value of `14.1234`, and `-0.00005`
normalizes to `0.0` (both verified through the constructor and on
`normalizeCoord` itself). -/
theorem truncation_to_four_decimals_exact :
    Params.new_with_last_response (F64.fromQ (141234567 / 10000000))
        (F64.fromQ (-(5 / 100000))) none none =
      .ok ⟨F64.fromQ (141234 / 10000), .finite 0, none, none⟩ ∧
    normalizeCoord (F64.fromQ (141234567 / 10000000)) =
      F64.fromQ (141234 / 10000) ∧
    normalizeCoord (F64.fromQ (-(5 / 100000))) = .finite 0 := by decide

/-- The source's latitude/longitude rejection test, re-expressed through
`F64.finiteAbsLe`. -/
lemma validCond_eq (x : F64) (b : ℚ) :
    (!x.isFinite || F64.gt x.abs (.finite b)) = !x.finiteAbsLe b := by
  cases x <;>
    simp [F64.isFinite, F64.abs, F64.gt, F64.finiteAbsLe, ← decide_not,
      decide_eq_decide, not_le]

/-- The source's altitude rejection test, re-expressed through
`altInRange`. -/
lemma altCond_eq (alt : Option Int) :
    (match alt with
     | some a => decide (¬(-500 ≤ a ∧ a ≤ 9000))
     | none => false) = !altInRange alt := by
  cases alt <;> simp [altInRange, ← decide_not]

/-- Functional characterization of `Params::new_with_last_response`. -/
lemma new_wlr_eq (lat lon : F64) (alt : Option Int)
    (last : Option Response) :
    Params.new_with_last_response lat lon alt last =
      if lat.finiteAbsLe 90 = false then
        .error (.Params "Invalid lat value.")
      else if lon.finiteAbsLe 180 = false then
        .error (.Params "Invalid lon value.")
      else if altInRange alt = false then
        .error (.Params "Invalid alt value.")
      else .ok ⟨normalizeCoord lat, normalizeCoord lon, alt, last⟩ := by
  unfold Params.new_with_last_response
  rw [validCond_eq lat 90, validCond_eq lon 180, altCond_eq]
  cases h1 : lat.finiteAbsLe 90 <;> cases h2 : lon.finiteAbsLe 180 <;>
    cases h3 : altInRange alt <;> simp

/-- Destructor for a successful `finiteAbsLe` check. -/
lemma finiteAbsLe_elim {x : F64} {b : ℚ} (h : x.finiteAbsLe b = true) :
    ∃ q, x = .finite q ∧ |q| ≤ b := by
  cases x with
  | finite q =>
    refine ⟨q, rfl, ?_⟩
    simpa [F64.finiteAbsLe] using h
  | inf => simp [F64.finiteAbsLe] at h
  | neginf => simp [F64.finiteAbsLe] at h
  | nan => simp [F64.finiteAbsLe] at h

/-- C6: construction accepts exactly finite latitudes in [-90, 90], finite
longitudes in [-180, 180] and altitudes in [-500, 9000] (boundaries
included, non-finite values excluded); each rejected field produces its own
`InvalidParams` reason, and the three reason strings are pairwise distinct.
Construction is a pure function (the embedding is effect-free). -/
theorem params_validation_boundaries (lat lon : F64) (alt : Option Int)
    (last : Option Response) :
    (exceptIsOk (Params.new_with_last_response lat lon alt last) =
      (lat.finiteAbsLe 90 && lon.finiteAbsLe 180 && altInRange alt)) ∧
    (lat.finiteAbsLe 90 = false →
      Params.new_with_last_response lat lon alt last =
        .error (.Params "Invalid lat value.")) ∧
    (lat.finiteAbsLe 90 = true → lon.finiteAbsLe 180 = false →
      Params.new_with_last_response lat lon alt last =
        .error (.Params "Invalid lon value.")) ∧
    (lat.finiteAbsLe 90 = true → lon.finiteAbsLe 180 = true →
      altInRange alt = false →
      Params.new_with_last_response lat lon alt last =
        .error (.Params "Invalid alt value.")) ∧
    (("Invalid lat value." : String) ≠ "Invalid lon value." ∧
     ("Invalid lat value." : String) ≠ "Invalid alt value." ∧
     ("Invalid lon value." : String) ≠ "Invalid alt value.") := by
  refine ⟨?_, ?_, ?_, ?_, by decide, by decide, by decide⟩
  · rw [new_wlr_eq]
    cases h1 : lat.finiteAbsLe 90 <;> cases h2 : lon.finiteAbsLe 180 <;>
      cases h3 : altInRange alt <;> simp [exceptIsOk]
  · intro h1
    rw [new_wlr_eq, if_pos h1]
  · intro h1 h2
    rw [new_wlr_eq, if_neg (by simp [h1]), if_pos h2]
  · intro h1 h2 h3
    rw [new_wlr_eq, if_neg (by simp [h1]), if_neg (by simp [h2]), if_pos h3]

/-- Witness for C6: both boundary corners are accepted; a NaN latitude, an
infinite longitude and an altitude of 9001 are rejected with their
field-specific reasons. -/
theorem params_validation_boundaries_witness :
    exceptIsOk (Params.new_with_last_response (.finite 90) (.finite 180)
      (some 9000) none) = true ∧
    exceptIsOk (Params.new_with_last_response (.finite (-90))
      (.finite (-180)) (some (-500)) none) = true ∧
    Params.new_with_last_response F64.nan (.finite 0) none none =
      .error (.Params "Invalid lat value.") ∧
    Params.new_with_last_response (.finite 0) F64.inf none none =
      .error (.Params "Invalid lon value.") ∧
    Params.new_with_last_response (.finite 0) (.finite 0) (some 9001) none =
      .error (.Params "Invalid alt value.") := by
  refine ⟨?_, ?_, ?_, ?_, ?_⟩
  · rw [(params_validation_boundaries (.finite 90) (.finite 180) (some 9000)
      none).1]
    decide
  · rw [(params_validation_boundaries (.finite (-90)) (.finite (-180))
      (some (-500)) none).1]
    decide
  · exact (params_validation_boundaries F64.nan (.finite 0) none
      none).2.1 (by decide)
  · exact (params_validation_boundaries (.finite 0) F64.inf none
      none).2.2.1 (by decide) (by decide)
  · exact (params_validation_boundaries (.finite 0) (.finite 0) (some 9001)
      none).2.2.2.1 (by decide) (by decide) (by decide)

/-- Correctness of the fuel-driven logarithm. -/
lemma log2fuel_spec : ∀ f n, 0 < n → n ≤ f →
    2 ^ log2fuel f n ≤ n ∧ n < 2 ^ (log2fuel f n + 1) := by
  intro f
  induction f with
  | zero => intro n h1 h2; omega
  | succ f ih =>
    intro n h1 h2
    by_cases h : 2 ≤ n
    · have hrec := ih (n / 2) (by omega) (by omega)
      simp only [log2fuel, if_pos h]
      obtain ⟨hl, hr⟩ := hrec
      simp only [pow_succ] at hl hr ⊢
      omega
    · simp only [log2fuel, if_neg h]
      have hn : n = 1 := by omega
      subst hn
      norm_num

/-- Correctness of `natLog2`. -/
lemma natLog2_spec {n : ℕ} (h : 0 < n) :
    2 ^ natLog2 n ≤ n ∧ n < 2 ^ (natLog2 n + 1) :=
  log2fuel_spec n n h le_rfl

/-- `pow2` agrees with integer powers of `2` in ℚ. -/
lemma pow2_eq_zpow (d : ℤ) : pow2 d = (2 : ℚ) ^ d := by
  unfold pow2
  split
  · next h =>
    rw [show ((2 ^ d.toNat : ℕ) : ℚ) = (2 : ℚ) ^ d.toNat by push_cast; ring,
      ← zpow_natCast, Int.toNat_of_nonneg h]
  · next h =>
    have h' : 0 ≤ -d := by omega
    rw [show ((2 ^ (-d).toNat : ℕ) : ℚ) = (2 : ℚ) ^ (-d).toNat by
        push_cast; ring,
      ← zpow_natCast, Int.toNat_of_nonneg h', ← zpow_neg, neg_neg]

/-- `pow2` is positive. -/
lemma pow2_pos (d : ℤ) : 0 < pow2 d := by
  rw [pow2_eq_zpow]; positivity

/-- `pow2` turns addition into multiplication. -/
lemma pow2_mul_pow2 (a b : ℤ) : pow2 a * pow2 b = pow2 (a + b) := by
  rw [pow2_eq_zpow, pow2_eq_zpow, pow2_eq_zpow, ← zpow_add₀ two_ne_zero]

/-- `pow2` is monotone. -/
lemma pow2_le_pow2 {a b : ℤ} (h : a ≤ b) : pow2 a ≤ pow2 b := by
  rw [pow2_eq_zpow, pow2_eq_zpow]
  exact zpow_le_zpow_right₀ one_le_two h

/-- `binadeQ` of a positive rational brackets it between consecutive powers
of two. -/
lemma binadeQ_correct {q : ℚ} (hq : 0 < q) :
    pow2 (binadeQ q) ≤ q ∧ q < pow2 (binadeQ q + 1) := by
  have hnum : 0 < q.num := Rat.num_pos.2 hq
  have haq : (q.num.toNat : ℤ) = q.num := Int.toNat_of_nonneg hnum.le
  have ha0 : 0 < q.num.toNat := by omega
  have hb0 : 0 < q.den := q.den_pos
  obtain ⟨ha1, ha2⟩ := natLog2_spec ha0
  obtain ⟨hb1, hb2⟩ := natLog2_spec hb0
  have hdenQ : (0 : ℚ) < (q.den : ℚ) := by exact_mod_cast hb0
  have hqeq : q = (q.num.toNat : ℚ) / (q.den : ℚ) := by
    rw [show ((q.num.toNat : ℕ) : ℚ) = ((q.num : ℤ) : ℚ) by
        exact_mod_cast congrArg (Int.cast : ℤ → ℚ) haq]
    exact (Rat.num_div_den q).symm
  set α := natLog2 q.num.toNat with hα
  set β := natLog2 q.den with hβ
  have hcast1 : ((2 ^ α : ℕ) : ℚ) = (2 : ℚ) ^ (α : ℤ) := by
    push_cast [← zpow_natCast]; ring
  have hupper : q < pow2 ((α : ℤ) - β + 1) := by
    rw [hqeq, pow2_eq_zpow, div_lt_iff₀ hdenQ]
    have c1 : (q.num.toNat : ℚ) < (2 : ℚ) ^ ((α : ℤ) + 1) := by
      rw [show ((α : ℤ) + 1) = ((α + 1 : ℕ) : ℤ) by push_cast; ring,
        zpow_natCast]
      exact_mod_cast ha2
    have c2 : (2 : ℚ) ^ (β : ℤ) ≤ (q.den : ℚ) := by
      rw [zpow_natCast]
      exact_mod_cast hb1
    calc (q.num.toNat : ℚ) < (2 : ℚ) ^ ((α : ℤ) + 1) := c1
      _ = (2 : ℚ) ^ ((α : ℤ) - β + 1) * (2 : ℚ) ^ (β : ℤ) := by
        rw [← zpow_add₀ two_ne_zero]; ring_nf
      _ ≤ (2 : ℚ) ^ ((α : ℤ) - β + 1) * (q.den : ℚ) := by
        exact mul_le_mul_of_nonneg_left c2 (by positivity)
  have hlower : pow2 ((α : ℤ) - β - 1) < q := by
    rw [hqeq, pow2_eq_zpow, lt_div_iff₀ hdenQ]
    have c1 : (2 : ℚ) ^ ((α : ℤ)) ≤ (q.num.toNat : ℚ) := by
      rw [zpow_natCast]
      exact_mod_cast ha1
    have c2 : (q.den : ℚ) < (2 : ℚ) ^ ((β : ℤ) + 1) := by
      rw [show ((β : ℤ) + 1) = ((β + 1 : ℕ) : ℤ) by push_cast; ring,
        zpow_natCast]
      exact_mod_cast hb2
    calc (2 : ℚ) ^ ((α : ℤ) - β - 1) * (q.den : ℚ)
        < (2 : ℚ) ^ ((α : ℤ) - β - 1) * (2 : ℚ) ^ ((β : ℤ) + 1) := by
          exact mul_lt_mul_of_pos_left c2 (by positivity)
      _ = (2 : ℚ) ^ ((α : ℤ)) := by
        rw [← zpow_add₀ two_ne_zero]; ring_nf
      _ ≤ (q.num.toNat : ℚ) := c1
  unfold binadeQ
  by_cases hc : q < pow2 ((natLog2 q.num.toNat : ℤ) - natLog2 q.den)
  · rw [if_pos hc]
    constructor
    · exact hlower.le
    · have : (α : ℤ) - β - 1 + 1 = (α : ℤ) - β := by ring
      rw [this]
      exact hc
  · rw [if_neg hc]
    exact ⟨not_lt.1 hc, hupper⟩

/-- `Rat.floor` is the floor. -/
lemma ratFloor_eq (q : ℚ) : Rat.floor q = ⌊q⌋ :=
  (Rat.floor_def' q).trans Rat.floor_def.symm

/-- Half-even rounding never overshoots an integer upper bound. -/
lemma halfEvenQ_le {x : ℚ} {n : ℤ} (h : x ≤ (n : ℚ)) : halfEvenQ x ≤ n := by
  unfold halfEvenQ
  simp only [ratFloor_eq]
  have hfl : ⌊x⌋ ≤ n := by
    have := Int.floor_le_floor h
    rwa [Int.floor_intCast] at this
  by_cases h1 : x - (⌊x⌋ : ℚ) < 1 / 2
  · rw [if_pos h1]; exact hfl
  · have h2 : (⌊x⌋ : ℚ) + 1 / 2 ≤ x := by
      push_neg at h1
      linarith
    have hltq : (⌊x⌋ : ℚ) < (n : ℚ) := by linarith
    have hlt : ⌊x⌋ < n := by exact_mod_cast hltq
    rw [if_neg h1]
    split_ifs <;> omega

/-- Half-even rounding of a nonnegative rational is nonnegative. -/
lemma halfEvenQ_nonneg {x : ℚ} (h : 0 ≤ x) : 0 ≤ halfEvenQ x := by
  unfold halfEvenQ
  simp only [ratFloor_eq]
  have hfl : 0 ≤ ⌊x⌋ := Int.floor_nonneg.2 h
  split_ifs <;> omega

/-- `roundPosQ` of a positive rational is nonnegative. -/
lemma roundPosQ_nonneg {q : ℚ} (h : 0 < q) : 0 ≤ roundPosQ q := by
  unfold roundPosQ
  apply mul_nonneg
  · exact_mod_cast halfEvenQ_nonneg (mul_nonneg h.le (pow2_pos _).le)
  · exact (pow2_pos _).le

/-- Rounding a positive rational below an integer bound `c ≤ 2^52` stays
below the bound (the bound is exactly representable at every reachable
granularity). -/
lemma roundPosQ_le {q : ℚ} {c : ℕ} (h0 : 0 < q) (hqc : q ≤ (c : ℚ))
    (hc : 0 < c) (hc52 : c ≤ 2 ^ 52) : roundPosQ q ≤ (c : ℚ) := by
  have hbin := binadeQ_correct h0
  have hble : binadeQ q ≤ 52 := by
    by_contra hcon
    push_neg at hcon
    have h1 : pow2 53 ≤ pow2 (binadeQ q) := pow2_le_pow2 (by omega)
    have h2 : (c : ℚ) ≤ pow2 52 := by
      have hp : pow2 52 = ((2 ^ 52 : ℕ) : ℚ) := by decide
      rw [hp]
      exact_mod_cast hc52
    have h3 : pow2 52 < pow2 53 := by
      rw [pow2_eq_zpow, pow2_eq_zpow]
      exact zpow_lt_zpow_right₀ one_lt_two (by omega)
    linarith [hbin.1]
  have main : ∀ e : ℤ, e ≤ 52 →
      ((halfEvenQ (q * pow2 (52 - e)) : ℤ) : ℚ) * pow2 (e - 52) ≤ (c : ℚ) := by
    intro e he
    have hs : 0 ≤ 52 - e := by omega
    have hpow2s : pow2 (52 - e) = ((2 ^ (52 - e).toNat : ℕ) : ℚ) := by
      unfold pow2
      rw [if_pos hs]
    have hNcast : ((c * 2 ^ (52 - e).toNat : ℕ) : ℚ) =
        (c : ℚ) * pow2 (52 - e) := by
      rw [hpow2s]; push_cast; ring
    have hscaled : q * pow2 (52 - e) ≤
        (((c * 2 ^ (52 - e).toNat : ℕ) : ℤ) : ℚ) := by
      push_cast
      rw [show ((c : ℚ) * 2 ^ (52 - e).toNat) = (c : ℚ) * pow2 (52 - e) by
        rw [hpow2s]; push_cast; ring]
      exact mul_le_mul_of_nonneg_right hqc (pow2_pos _).le
    have hhe := halfEvenQ_le hscaled
    calc ((halfEvenQ (q * pow2 (52 - e)) : ℤ) : ℚ) * pow2 (e - 52)
        ≤ (((c * 2 ^ (52 - e).toNat : ℕ) : ℤ) : ℚ) * pow2 (e - 52) := by
          exact mul_le_mul_of_nonneg_right (by exact_mod_cast hhe)
            (pow2_pos _).le
      _ = (c : ℚ) * (pow2 (52 - e) * pow2 (e - 52)) := by
          rw [show (((c * 2 ^ (52 - e).toNat : ℕ) : ℤ) : ℚ) =
              (c : ℚ) * pow2 (52 - e) by rw [hpow2s]; push_cast; ring]
          ring
      _ = (c : ℚ) := by
          rw [pow2_mul_pow2, show (52 - e) + (e - 52) = 0 by ring]
          norm_num [pow2]
  unfold roundPosQ
  exact main _ (max_le hble (by norm_num))

/-- Rounding to binary64 preserves an integer magnitude bound `c ≤ 2^52`. -/
lemma roundQ_abs_le {x : ℚ} {c : ℕ} (hc : 0 < c) (hc52 : c ≤ 2 ^ 52)
    (h : |x| ≤ (c : ℚ)) : |roundQ x| ≤ (c : ℚ) := by
  unfold roundQ
  split_ifs with h0 hpos
  · rw [abs_zero]
    positivity
  · have h1 : roundPosQ x ≤ (c : ℚ) :=
      roundPosQ_le hpos (le_trans (le_abs_self x) h) hc hc52
    have h2 : 0 ≤ roundPosQ x := roundPosQ_nonneg hpos
    rw [abs_of_nonneg h2]
    exact h1
  · have hneg : 0 < -x := by
      have hx0 : x < 0 := lt_of_le_of_ne (not_lt.1 hpos) h0
      linarith
    have h1 : roundPosQ (-x) ≤ (c : ℚ) :=
      roundPosQ_le hneg (le_trans (neg_le_abs x) h) hc hc52
    have h2 : 0 ≤ roundPosQ (-x) := roundPosQ_nonneg hneg
    rw [abs_neg, abs_of_nonneg h2]
    exact h1

/-- For rationals within an integer bound `c ≤ 2^52`, `fromQ` lands in the
finite range and keeps the bound. -/
lemma fromQ_finite_of_abs_le {x : ℚ} {c : ℕ} (hc : 0 < c)
    (hc52 : c ≤ 2 ^ 52) (h : |x| ≤ (c : ℚ)) :
    F64.fromQ x = .finite (roundQ x) ∧ |roundQ x| ≤ (c : ℚ) := by
  have hb := roundQ_abs_le hc hc52 h
  refine ⟨?_, hb⟩
  have hlt : (c : ℚ) < ((2 ^ 1024 : ℕ) : ℚ) := by
    have : (c : ℕ) < 2 ^ 1024 :=
      lt_of_le_of_lt hc52 (Nat.pow_lt_pow_right one_lt_two (by omega))
    exact_mod_cast this
  simp only [F64.fromQ]
  rw [if_neg (not_le.2 (lt_of_le_of_lt hb hlt))]

/-- Truncation toward zero never increases the magnitude of a rational. -/
lemma abs_tdiv_le (q : ℚ) : |((Int.tdiv q.num q.den : ℤ) : ℚ)| ≤ |q| := by
  have hden : (0 : ℚ) < (q.den : ℚ) := by exact_mod_cast q.den_pos
  have hint : |Int.tdiv q.num q.den| = ((q.num.natAbs / q.den : ℕ) : ℤ) := by
    rw [Int.abs_eq_natAbs, Int.natAbs_tdiv, Int.natAbs_ofNat]
    exact rfl
  have h1 : |((Int.tdiv q.num q.den : ℤ) : ℚ)| =
      ((q.num.natAbs / q.den : ℕ) : ℚ) := by
    rw [← Int.cast_abs, hint, Int.cast_natCast]
  have h2 : |q| = ((q.num.natAbs : ℕ) : ℚ) / ((q.den : ℕ) : ℚ) := by
    conv_lhs => rw [← Rat.num_div_den q]
    rw [abs_div, abs_of_pos hden, Int.cast_natAbs, Int.cast_abs]
  rw [h1, h2, le_div_iff₀ hden]
  exact_mod_cast Nat.div_mul_le_self q.num.natAbs q.den

/-- The normalization chain `(x * 10000).trunc() / 10000` keeps a finite
value within any integer bound `b` with `b * 10000 ≤ 2^52`. -/
lemma normalizeCoord_finiteAbsLe {q : ℚ} {b : ℕ} (hb : 0 < b)
    (hb52 : b * 10000 ≤ 2 ^ 52) (h : |q| ≤ (b : ℚ)) :
    (normalizeCoord (.finite q)).finiteAbsLe (b : ℚ) = true := by
  unfold normalizeCoord
  have hM : |q * 10000| ≤ ((b * 10000 : ℕ) : ℚ) := by
    rw [abs_mul, abs_of_pos (show (0 : ℚ) < 10000 by norm_num)]
    push_cast
    nlinarith [abs_nonneg q]
  obtain ⟨hmul, hmb⟩ :=
    fromQ_finite_of_abs_le (by positivity) hb52 hM
  rw [show F64.mul (.finite q) (.finite 10000) = F64.fromQ (q * 10000)
    from rfl, hmul]
  set r := roundQ (q * 10000) with hr
  rw [show F64.trunc (.finite r) =
    .finite ((Int.tdiv r.num r.den : ℤ) : ℚ) from rfl]
  set t : ℚ := ((Int.tdiv r.num r.den : ℤ) : ℚ) with ht
  have htb : |t| ≤ ((b * 10000 : ℕ) : ℚ) := le_trans (abs_tdiv_le r) hmb
  rw [show F64.div (.finite t) (.finite 10000) = F64.fromQ (t / 10000) by
    simp [F64.div]]
  have hq10 : |t / 10000| ≤ (b : ℚ) := by
    rw [abs_div, abs_of_pos (show (0 : ℚ) < 10000 by norm_num)]
    rw [div_le_iff₀ (by norm_num)]
    calc |t| ≤ ((b * 10000 : ℕ) : ℚ) := htb
      _ = (b : ℚ) * 10000 := by push_cast; ring
  obtain ⟨hdiv, hdb⟩ := fromQ_finite_of_abs_le hb
    (le_trans (by omega : b ≤ b * 10000) hb52) hq10
  rw [hdiv]
  simp [F64.finiteAbsLe, hdb]

/-- C10: every successfully constructed `Params` satisfies the validation
ranges as a data invariant: the stored latitude is finite with magnitude at
most 90, the stored longitude finite with magnitude at most 180 (truncation
to four decimals never increases the magnitude), and the stored altitude,
when present, lies in [-500, 9000]. -/
theorem params_range_invariant (lat lon : F64) (alt : Option Int)
    (last : Option Response) (p : Params)
    (h : Params.new_with_last_response lat lon alt last = .ok p) :
    p.lat.finiteAbsLe 90 = true ∧ p.lon.finiteAbsLe 180 = true ∧
    altInRange p.alt = true := by
  rw [new_wlr_eq] at h
  by_cases h1 : lat.finiteAbsLe 90 = false
  · rw [if_pos h1] at h
    exact Except.noConfusion h
  rw [if_neg h1] at h
  by_cases h2 : lon.finiteAbsLe 180 = false
  · rw [if_pos h2] at h
    exact Except.noConfusion h
  rw [if_neg h2] at h
  by_cases h3 : altInRange alt = false
  · rw [if_pos h3] at h
    exact Except.noConfusion h
  rw [if_neg h3] at h
  injection h with h
  subst h
  have hlat : lat.finiteAbsLe 90 = true := by
    cases hv : lat.finiteAbsLe 90
    · exact absurd hv h1
    · rfl
  have hlon : lon.finiteAbsLe 180 = true := by
    cases hv : lon.finiteAbsLe 180
    · exact absurd hv h2
    · rfl
  have halt : altInRange alt = true := by
    cases hv : altInRange alt
    · exact absurd hv h3
    · rfl
  obtain ⟨ql, hql, hqlb⟩ := finiteAbsLe_elim hlat
  obtain ⟨qo, hqo, hqob⟩ := finiteAbsLe_elim hlon
  subst hql
  subst hqo
  refine ⟨?_, ?_, halt⟩
  · have := normalizeCoord_finiteAbsLe (q := ql) (b := 90)
      (by norm_num) (by norm_num) (by exact_mod_cast hqlb)
    simpa using this
  · have := normalizeCoord_finiteAbsLe (q := qo) (b := 180)
      (by norm_num) (by norm_num) (by exact_mod_cast hqob)
    simpa using this

/-- Witness for C10 at a concrete accepted construction. -/
theorem params_range_invariant_witness :
    F64.finiteAbsLe (.finite 50) 90 = true ∧
    F64.finiteAbsLe (.finite 14) 180 = true ∧
    altInRange (some 300) = true := by
  have h : Params.new_with_last_response (.finite 50) (.finite 14)
      (some 300) none = .ok ⟨.finite 50, .finite 14, some 300, none⟩ := by
    decide
  exact params_range_invariant (.finite 50) (.finite 14) (some 300) none
    ⟨.finite 50, .finite 14, some 300, none⟩ h
